import Mathlib

/-!
Shallow embedding of the food-lover-server HTTP service (src/index.js):
an Express application over two MongoDB collections, "reviews" and
"favorites".  Documents are modelled as association lists of JSON/BSON
scalar values, the database as the pair of collection contents, and each
route handler as a pure function from the database (plus the request) to
an HTTP response and the resulting database.  The server timestamp
(`new Date()`) and the storage-generated ObjectId of an insert are passed
in explicitly.
-/

open scoped Lex

namespace FoodLover

/-- Scalar JSON/BSON values as they occur in this service: JSON bodies
contribute null, booleans, numbers and strings; the storage layer adds
ObjectId (`vId`, a 24-char lowercase hex string) and Date (`vDate`, a
millisecond timestamp) values; `vNaN` is the JavaScript NaN produced by
`Number` coercion.  Numbers are modelled as integers (the service only
ever computes with integral ratings and timestamps). -/
inductive Value where
  | vNull
  | vNaN
  | vBool (b : Bool)
  | vNum (n : Int)
  | vStr (s : String)
  | vId (hex : String)
  | vDate (t : Int)
deriving DecidableEq

/-- A document (or a parsed JSON request body): a finite list of
field/value bindings, looked up first-match-first. -/
abbrev Doc := List (String × Value)

/-- Field lookup, first binding wins. -/
def getField (d : Doc) (f : String) : Option Value :=
  match d with
  | [] => none
  | (k, v) :: rest => if k = f then some v else getField rest f

/-- Does the document bind the field? -/
def hasField (d : Doc) (f : String) : Bool :=
  (getField d f).isSome

/-- Drop every binding of one field. -/
def removeField (d : Doc) (f : String) : Doc :=
  match d with
  | [] => []
  | (k, v) :: rest => if k = f then removeField rest f else (k, v) :: removeField rest f

/-- Functional update of one field, as produced by a JavaScript object
spread followed by an explicit property (the binding for `f` is replaced
by `v`; other bindings are kept). -/
def setField (d : Doc) (f : String) (v : Value) : Doc :=
  removeField d f ++ [(f, v)]

/-- The string express-validator hands to its validators for a body
field: missing and null become the empty string, other scalars are
stringified the way JavaScript does. -/
def valueToFieldStr : Option Value → String
  | none => ""
  | some .vNull => ""
  | some (.vBool b) => cond b "true" "false"
  | some (.vNum n) => toString n
  | some .vNaN => "NaN"
  | some (.vStr s) => s
  | some (.vId h) => h
  | some (.vDate t) => toString t

/-- Accumulate the decimal value of a digit list. -/
def digitsToNat : List Char → Nat → Nat
  | [], acc => acc
  | c :: cs, acc => digitsToNat cs (acc * 10 + (c.toNat - '0'.toNat))

/-- Nonempty all-digit character list. -/
def isDigitList (cs : List Char) : Bool :=
  cs ≠ [] && cs.all (·.isDigit)

/-- Parse an optionally signed decimal integer literal (leading zeroes
allowed, matching validator.js's default isInt grammar). -/
def parseSignedInt (cs : List Char) : Option Int :=
  match cs with
  | '-' :: rest => if isDigitList rest then some (-(digitsToNat rest 0 : Int)) else none
  | '+' :: rest => if isDigitList rest then some ((digitsToNat rest 0 : Int)) else none
  | _ => if isDigitList cs then some ((digitsToNat cs 0 : Int)) else none

/-- JavaScript whitespace characters stripped by Number coercion. -/
def isJsSpace (c : Char) : Bool :=
  c = ' ' || c = '\t' || c = '\n' || c = '\r'

/-- Strip leading and trailing whitespace from a character list. -/
def trimChars (cs : List Char) : List Char :=
  ((cs.dropWhile isJsSpace).reverse.dropWhile isJsSpace).reverse

/-- JavaScript `Number(string)`, restricted to the integer-literal
fragment this service actually stores (ratings are validated integers):
whitespace is trimmed, the empty string is 0, a signed decimal literal is
its value, and anything else is NaN. -/
def strToNumber (s : String) : Value :=
  let t := trimChars s.data
  if t = [] then .vNum 0
  else
    match parseSignedInt t with
    | some n => .vNum n
    | none => .vNaN

/-- JavaScript `Number(x)` on the values of this model (missing field =
undefined, hence NaN). -/
def jsNumber : Option Value → Value
  | none => .vNaN
  | some .vNull => .vNum 0
  | some (.vBool b) => .vNum (cond b 1 0)
  | some (.vNum n) => .vNum n
  | some .vNaN => .vNaN
  | some (.vStr s) => strToNumber s
  | some (.vId _) => .vNaN
  | some (.vDate t) => .vNum t

/-- JavaScript `typeof x === "number"` (NaN is of number type). -/
def isNumberType : Value → Bool
  | .vNum _ => true
  | .vNaN => true
  | _ => false

/-- The per-review read-path transformation `{...r, rating: Number(r.rating)}`. -/
def coerceRating (d : Doc) : Doc :=
  setField d "rating" (jsNumber (getField d "rating"))

/-- Hexadecimal digit. -/
def isHexChar (c : Char) : Bool :=
  c.isDigit || ('a' ≤ c && c ≤ 'f') || ('A' ≤ c && c ≤ 'F')

/-- A 24-character hex string, the only string shape `new ObjectId(s)`
accepts; anything else makes the constructor throw. -/
def isValidObjectIdStr (s : String) : Bool :=
  s.data.length = 24 && s.data.all isHexChar

/-- Lowercase a string characterwise (ObjectId normalises its hex). -/
def lowerStr (s : String) : String :=
  ⟨s.data.map Char.toLower⟩

/-- BSON type bracket used by MongoDB when values of different types are
compared in a sort: missing and null lowest, then NaN (below every
number), numbers, strings, ObjectId, booleans, dates. -/
def bsonRank : Option Value → Nat
  | none => 1
  | some .vNull => 1
  | some .vNaN => 2
  | some (.vNum _) => 3
  | some (.vStr _) => 4
  | some (.vId _) => 5
  | some (.vBool _) => 6
  | some (.vDate _) => 7

/-- Numeric component of the BSON sort key (meaningful within the
number, boolean and date brackets). -/
def bsonNumKey : Option Value → Int
  | some (.vNum n) => n
  | some (.vBool b) => cond b 1 0
  | some (.vDate t) => t
  | _ => 0

/-- String component of the BSON sort key (meaningful within the string
and ObjectId brackets; binary comparison). -/
def bsonStrKey : Option Value → List Char
  | some (.vStr s) => s.data
  | some (.vId h) => h.data
  | _ => []

/-- Total BSON comparison key: lexicographic on (type bracket, numeric
part, string part). -/
def bsonKey (v : Option Value) : Lex (Nat × Lex (Int × List Char)) :=
  toLex (bsonRank v, toLex (bsonNumKey v, bsonStrKey v))

/-- Document `a` may precede document `b` in a MongoDB sort on field `f`
in descending order: `b`'s key is at most `a`'s.  Ties are left to the
sort algorithm, matching the unspecified tie order of the storage. -/
def fieldDescBefore (f : String) (a b : Doc) : Prop :=
  bsonKey (getField b f) ≤ bsonKey (getField a f)

instance (f : String) : DecidableRel (fieldDescBefore f) :=
  fun a b => inferInstanceAs (Decidable (_ ≤ _))

instance (f : String) : IsTotal Doc (fieldDescBefore f) :=
  ⟨fun a b => le_total (bsonKey (getField b f)) (bsonKey (getField a f))⟩

instance (f : String) : IsTrans Doc (fieldDescBefore f) :=
  ⟨fun _ _ _ h1 h2 => le_trans h2 h1⟩

/-- Model of `.sort({f: -1})`: sort the found documents by field `f`
descending under the BSON comparison. -/
def sortByFieldDesc (f : String) (docs : List Doc) : List Doc :=
  List.insertionSort (fieldDescBefore f) docs

/-- One express-validator error entry, as produced by `errors.array()`:
the offending field path and a message. -/
structure VError where
  path : String
  msg : String
deriving DecidableEq

/-- Simplified model of validator.js isEmail, at the precision the spec
uses ("email-shape string"): exactly one at-sign separating a nonempty
local part from a nonempty domain that contains a dot, and no spaces. -/
def isEmailStr (s : String) : Bool :=
  hasEmailShape s.data false []
where
  /-- Scan for the at-sign, accumulating the local part length. -/
  hasEmailShape : List Char → Bool → List Char → Bool
    | [], sawAt, dom => sawAt && dom.reverse.contains '.' && dom ≠ []
    | c :: cs, false, lp =>
        if c = '@' then lp ≠ [] && hasEmailShape cs true []
        else if c = ' ' then false
        else hasEmailShape cs false (c :: lp)
    | c :: cs, true, dom =>
        if c = '@' then false
        else if c = ' ' then false
        else hasEmailShape cs true (c :: dom)

/-- The default express-validator message. -/
def invalidMsg : String := "Invalid value"

/-- body(f).notEmpty(): the stringified field must be nonempty. -/
def vNotEmpty (body : Doc) (f : String) : List VError :=
  if valueToFieldStr (getField body f) = "" then [⟨f, invalidMsg⟩] else []

/-- body(f).isInt({min, max}): the stringified field must be a signed
decimal integer literal within the inclusive bounds. -/
def vIsIntRange (body : Doc) (f : String) (lo hi : Int) : List VError :=
  match parseSignedInt (valueToFieldStr (getField body f)).data with
  | some n => if lo ≤ n ∧ n ≤ hi then [] else [⟨f, invalidMsg⟩]
  | none => [⟨f, invalidMsg⟩]

/-- body(f).isEmail(). -/
def vIsEmail (body : Doc) (f : String) : List VError :=
  if isEmailStr (valueToFieldStr (getField body f)) then [] else [⟨f, invalidMsg⟩]

/-- body(f).optional().rule: the rule is skipped when the field is absent. -/
def vOptional (body : Doc) (f : String) (rule : Doc → String → List VError) : List VError :=
  match getField body f with
  | none => []
  | some _ => rule body f

/-- The POST /reviews validator chain, in declaration order. -/
def postReviewsErrors (body : Doc) : List VError :=
  vNotEmpty body "foodName" ++ vNotEmpty body "foodImage"
    ++ vNotEmpty body "restaurantName" ++ vIsIntRange body "rating" 0 5
    ++ vIsEmail body "userEmail"

/-- The PUT /reviews/:id validator chain (all rules optional). -/
def putReviewsErrors (body : Doc) : List VError :=
  vOptional body "foodName" vNotEmpty ++ vOptional body "foodImage" vNotEmpty
    ++ vOptional body "restaurantName" vNotEmpty
    ++ vOptional body "rating" (fun b f => vIsIntRange b f 0 5)

/-- The POST /favorites validator chain. -/
def postFavoritesErrors (body : Doc) : List VError :=
  vIsEmail body "userEmail" ++ vNotEmpty body "reviewId"

/-- Matcher for the regular-expression fragment this embedding models
(the fragment the handler's `$regex` filter is exercised with here):
every pattern character is a literal except the dot, which matches any
single character; matching is case-insensitive, as the handler passes
`$options: "i"`. -/
def patMatchAt : List Char → List Char → Bool
  | [], _ => true
  | _ :: _, [] => false
  | p :: ps, c :: cs => (p = '.' || p.toLower = c.toLower) && patMatchAt ps cs

/-- Unanchored regex search over the text, trying every start position. -/
def regexSearchCI (pat : List Char) : List Char → Bool
  | [] => patMatchAt pat []
  | c :: cs => patMatchAt pat (c :: cs) || regexSearchCI pat cs

/-- Case-insensitive prefix test (spec-side helper). -/
def startsWithCI : List Char → List Char → Bool
  | [], _ => true
  | _ :: _, [] => false
  | p :: ps, c :: cs => p.toLower = c.toLower && startsWithCI ps cs

/-- Case-insensitive substring containment, the relation the spec's words
describe for the search filter. -/
def containsCI (pat : List Char) : List Char → Bool
  | [] => startsWithCI pat []
  | c :: cs => startsWithCI pat (c :: cs) || containsCI pat cs

/-- Characters with a special meaning in the storage's regex dialect. -/
def regexMetaChars : List Char :=
  ['.', '^', '$', '*', '+', '?', '(', ')', '[', ']', '{', '}', '|', '\\']

/-- A pattern free of regex metacharacters (matched purely literally). -/
def literalPat (pat : List Char) : Bool :=
  pat.all (fun c => !(regexMetaChars.contains c))

/-- The query string of GET /reviews: both parameters optional. -/
structure ReviewsQuery where
  userEmail : Option String
  search : Option String

/-- The `userEmail` part of the filter the GET /reviews handler builds:
added only when the parameter is truthy (JavaScript: present and
nonempty), then an exact equality match. -/
def emailFilter : Option String → Doc → Bool
  | none, _ => true
  | some s, d => if s = "" then true else getField d "userEmail" == some (.vStr s)

/-- The `search` part of the filter the handler builds: a
case-insensitive `$regex` on `foodName`, added only when the parameter
is present and nonblank after trim.  A `$regex` only matches string
fields. -/
def searchRegexFilter : Option String → Doc → Bool
  | none, _ => true
  | some s, d =>
      if trimChars s.data = [] then true
      else
        match getField d "foodName" with
        | some (.vStr fn) => regexSearchCI s.data fn.data
        | _ => false

/-- The filter document the GET /reviews handler hands to `find`. -/
def matchesQuery (q : ReviewsQuery) (d : Doc) : Bool :=
  emailFilter q.userEmail d && searchRegexFilter q.search d

/-- Follows the spec's words for the search filter, for comparison with
`searchRegexFilter` (the code's): a case-insensitive substring match
against `foodName`, ignored when empty or whitespace-only after trim. -/
def searchSubstrFilter : Option String → Doc → Bool
  | none, _ => true
  | some s, d =>
      if trimChars s.data = [] then true
      else
        match getField d "foodName" with
        | some (.vStr fn) => containsCI s.data fn.data
        | _ => false

/-- Follows the spec's words, for comparison with `matchesQuery`. -/
def specMatches (q : ReviewsQuery) (d : Doc) : Bool :=
  emailFilter q.userEmail d && searchSubstrFilter q.search d

/-- Response bodies, one constructor per JSON shape the routes emit;
`rErrPage` is the HTML error page Express produces when a handler throws
synchronously (the `new ObjectId` throw on a malformed identifier). -/
inductive RespBody where
  | rMsg (msg : String)
  | rErrors (errs : List VError)
  | rReviewsObj (reviews : List Doc)
  | rArr (docs : List Doc)
  | rDoc (d : Doc)
  | rInsert (insertedId : Value)
  | rFavs (recs : List (Doc × Option Doc))
  | rErrPage
deriving DecidableEq

/-- An HTTP response. -/
structure Resp where
  status : Nat
  body : RespBody
deriving DecidableEq

/-- The persistent state: the contents of the two collections, in
storage (insertion) order. -/
structure DB where
  reviews : List Doc
  favorites : List Doc
deriving DecidableEq

/-- Predicate of `findOne({_id: new ObjectId(oid)})`. -/
def idPred (oid : String) (d : Doc) : Bool :=
  getField d "_id" == some (.vId oid)

/-- findOne by ObjectId: first match in storage order. -/
def findOneById (docs : List Doc) (oid : String) : Option Doc :=
  docs.find? (idPred oid)

/-- Model of `collection.insertOne(d)`: a storage-generated `_id` is
added when the document has none; a duplicate `_id` makes the operation
fail (storage duplicate-key error, surfaced by the handlers as a 500).
Returns the stored collection and the reported insertedId. -/
def insertOne (docs : List Doc) (d : Doc) (fresh : String) : Option (List Doc × Value) :=
  let newId := match getField d "_id" with
    | some v => v
    | none => Value.vId fresh
  let stored := if hasField d "_id" then d else ("_id", Value.vId fresh) :: d
  if docs.any (fun e => getField e "_id" == some newId) then none
  else some (docs ++ [stored], newId)

/-- GET /reviews: filter, sort by date descending, wrap in an object,
coercing each rating to a number. -/
def getReviews (db : DB) (q : ReviewsQuery) : Resp :=
  let docs := sortByFieldDesc "date" (db.reviews.filter (matchesQuery q))
  ⟨200, .rReviewsObj (docs.map coerceRating)⟩

/-- GET /reviews/top: sort by rating descending, take 6, respond with a
bare array, coercing each rating to a number. -/
def getTopReviews (db : DB) : Resp :=
  let docs := (sortByFieldDesc "rating" db.reviews).take 6
  ⟨200, .rArr (docs.map coerceRating)⟩

/-- GET /reviews/:id: `new ObjectId(id)` throws on a malformed
identifier (Express answers 500 with its error page); otherwise findOne,
404 when nothing matches, else the review with its rating coerced. -/
def getReviewById (db : DB) (id : String) : Resp :=
  if isValidObjectIdStr id then
    match findOneById db.reviews (lowerStr id) with
    | none => ⟨404, .rMsg "Review not found"⟩
    | some r => ⟨200, .rDoc (coerceRating r)⟩
  else ⟨500, .rErrPage⟩

/-- POST /reviews: validate, stamp the body with the server date, insert
as-is; 201 with the raw insertion result. -/
def postReviews (db : DB) (body : Doc) (now : Int) (fresh : String) : Resp × DB :=
  if postReviewsErrors body ≠ [] then
    (⟨400, .rErrors (postReviewsErrors body)⟩, db)
  else
    let review := setField body "date" (.vDate now)
    match insertOne db.reviews review fresh with
    | some (docs, newId) => (⟨201, .rInsert newId⟩, { db with reviews := docs })
    | none => (⟨500, .rMsg "Failed to add review"⟩, db)

/-- Apply `$set` for each update field in order. -/
def mergeSet (d : Doc) (upd : Doc) : Doc :=
  upd.foldl (fun acc kv => setField acc kv.1 kv.2) d

/-- The field merge a nonempty `$set` applies to the first matching
document; returns matchedCount and the collection. -/
def updateFirstById (docs : List Doc) (oid : String) (upd : Doc) : Nat × List Doc :=
  match docs with
  | [] => (0, [])
  | d :: rest =>
      if idPred oid d then (1, mergeSet d upd :: rest)
      else
        let r := updateFirstById rest oid upd
        (r.1, d :: r.2)

/-- Model of `updateOne({_id}, {$set: upd})`: MongoDB rejects an empty
update modifier ("'$set' is empty"), modelled as `none`; otherwise the
update merges into the first matching document. -/
def updateOneById (docs : List Doc) (oid : String) (upd : Doc) : Option (Nat × List Doc) :=
  if upd = [] then none
  else some (updateFirstById docs oid upd)

/-- PUT /reviews/:id: validate (fields optional), parse the identifier
(throwing 500 when malformed), `$set` the whole body — the storage's
rejection of an empty `$set` lands in the handler's catch as a 500 —
and 404 when nothing matched. -/
def putReviews (db : DB) (id : String) (body : Doc) : Resp × DB :=
  if putReviewsErrors body ≠ [] then
    (⟨400, .rErrors (putReviewsErrors body)⟩, db)
  else if isValidObjectIdStr id then
    match updateOneById db.reviews (lowerStr id) body with
    | none => (⟨500, .rMsg "Failed to update review"⟩, db)
    | some r =>
        if r.1 = 0 then (⟨404, .rMsg "Review not found"⟩, { db with reviews := r.2 })
        else (⟨200, .rMsg "Review updated successfully"⟩, { db with reviews := r.2 })
  else (⟨500, .rErrPage⟩, db)

/-- Predicate of `findOne({userEmail, reviewId})` with the values taken
from the request body. -/
def sameFavPair (body d : Doc) : Bool :=
  getField d "userEmail" == getField body "userEmail"
    && getField d "reviewId" == getField body "reviewId"

/-- POST /favorites: validate, refuse an existing (userEmail, reviewId)
pair with 400, otherwise insert exactly those two body fields plus the
server date. -/
def postFavorites (db : DB) (body : Doc) (now : Int) (fresh : String) : Resp × DB :=
  if postFavoritesErrors body ≠ [] then
    (⟨400, .rErrors (postFavoritesErrors body)⟩, db)
  else
    match db.favorites.find? (sameFavPair body) with
    | some _ => (⟨400, .rMsg "Already favorited"⟩, db)
    | none =>
        let fav : Doc :=
          [("userEmail", (getField body "userEmail").getD .vNull),
           ("reviewId", (getField body "reviewId").getD .vNull),
           ("date", Value.vDate now)]
        match insertOne db.favorites fav fresh with
        | some (docs, newId) => (⟨201, .rInsert newId⟩, { db with favorites := docs })
        | none => (⟨500, .rMsg "Failed to add favorite"⟩, db)

/-- The stored reviewId of a favorite, for the string-valued reviewIds
this embedding covers. -/
def favRidStr (fav : Doc) : String :=
  match getField fav "reviewId" with
  | some (.vStr s) => s
  | some (.vId h) => h
  | _ => ""

/-- The per-favorite step of the GET /favorites/:email fan-out join:
`new ObjectId(fav.reviewId)` followed by a review lookup.  `none` models
the constructor throwing on a malformed identifier, which rejects the
whole `Promise.all`.  The embedding covers string- and ObjectId-valued
reviewIds (the shapes this service stores). -/
def favoriteRecord (db : DB) (fav : Doc) : Option (Doc × Option Doc) :=
  match getField fav "reviewId" with
  | some (.vStr s) =>
      if isValidObjectIdStr s then some (fav, findOneById db.reviews (lowerStr s))
      else none
  | some (.vId h) => some (fav, findOneById db.reviews h)
  | _ => none

/-- GET /favorites/:email: all favorites of the email, each joined with
its review; one thrown identifier parse rejects the whole response. -/
def getFavorites (db : DB) (email : String) : Resp :=
  let favs := db.favorites.filter (fun d => getField d "userEmail" == some (.vStr email))
  match favs.mapM (favoriteRecord db) with
  | some recs => ⟨200, .rFavs recs⟩
  | none => ⟨500, .rMsg "Failed to fetch favorites"⟩

/-- The pattern restriction of the search parameter: the spec's
substring reading coincides with the code's regex reading on patterns
free of regex metacharacters. -/
def searchLiteral (q : ReviewsQuery) : Prop :=
  ∀ s, q.search = some s → literalPat s.data = true

/-! Concrete fixtures used by counterexamples and witnesses. -/
def oidA : String := "0123456789abcdef01234567"

def oidB : String := "89abcdef0123456789abcdef"

def oidC : String := "aaaabbbbccccddddeeeeffff"

def dbEmpty : DB := ⟨[], []⟩

/-- A POST /reviews body whose rating is submitted as the string "4";
it passes validation (isInt validates the stringified field). -/
def strRatingBody : Doc :=
  [("foodName", .vStr "Taco"), ("foodImage", .vStr "x.png"),
   ("restaurantName", .vStr "Joes"), ("rating", .vStr "4"),
   ("userEmail", .vStr "a@b.com")]

/-- A POST /reviews body with a numeric rating. -/
def numRatingBody : Doc :=
  [("foodName", .vStr "Pizza Margherita"), ("foodImage", .vStr "y.png"),
   ("restaurantName", .vStr "Luigi"), ("rating", .vNum 4),
   ("userEmail", .vStr "a@b.com")]

/-- A POST /reviews body whose rating is the string "3". -/
def str3RatingBody : Doc :=
  [("foodName", .vStr "Sushi"), ("foodImage", .vStr "z.png"),
   ("restaurantName", .vStr "Kaito"), ("rating", .vStr "3"),
   ("userEmail", .vStr "a@b.com")]

/-- A stored review document. -/
def rvA : Doc :=
  [("_id", .vId oidA), ("foodName", .vStr "pizza"), ("foodImage", .vStr "y.png"),
   ("restaurantName", .vStr "Luigi"), ("rating", .vNum 4),
   ("userEmail", .vStr "a@b.com"), ("date", .vDate 10)]

def dbOne : DB := ⟨[rvA], []⟩

/-- The documents of a bare-array response (empty for other shapes). -/
def arrDocsOf (r : Resp) : List Doc :=
  match r.body with
  | .rArr l => l
  | _ => []

/-- The numeric value of a document's rating (0 for non-numbers). -/
def ratingNum (d : Doc) : Int :=
  match getField d "rating" with
  | some (.vNum n) => n
  | _ => 0

/-- Does the option hold a number value? -/
def isNumValue : Option Value → Bool
  | some (.vNum _) => true
  | _ => false

/-- A database reached by creating a review with numeric rating 4 and
then one with string rating "3" (both pass validation). -/
def dbMix : DB :=
  (postReviews (postReviews dbEmpty numRatingBody 10 oidA).2 str3RatingBody 20 oidB).2

/-- The reviews list of an object-wrapped response. -/
def reviewsOf (r : Resp) : List Doc :=
  match r.body with
  | .rReviewsObj l => l
  | _ => []

/-- The query with the search pattern "p.zza", which contains the regex
wildcard dot. -/
def qDot : ReviewsQuery := ⟨none, some "p.zza"⟩

/-- The document POST /favorites builds from the body, before storage
assigns an `_id`. -/
def favOf (b : Doc) (now : Int) : Doc :=
  [("userEmail", (getField b "userEmail").getD .vNull),
   ("reviewId", (getField b "reviewId").getD .vNull),
   ("date", Value.vDate now)]

/-- A POST /favorites body carrying an extra field beyond the pair. -/
def favBodyX : Doc :=
  [("userEmail", .vStr "a@b.com"), ("reviewId", .vStr "zz"), ("extra", .vNum 7)]

/-- The number of stored favorites matching the body's pair. -/
def countPair (db : DB) (b : Doc) : Nat :=
  (db.favorites.filter (sameFavPair b)).length

/-- Is the stored reviewId a string that parses as an ObjectId? -/
def validStrRid (d : Doc) : Bool :=
  match getField d "reviewId" with
  | some (.vStr s) => isValidObjectIdStr s
  | _ => false

/-- A database with one favorite whose stored reviewId is the malformed
string "zz", reached through the POST /favorites handler (the notEmpty
validator accepts any nonempty string). -/
def dbBadFav : DB := (postFavorites dbEmpty favBodyX 3 oidB).2

/-- The POST /favorites body behind the orphan-favorite witness. -/
def bodyO : Doc := [("userEmail", .vStr "a@b.com"), ("reviewId", .vStr oidC)]

/-- A database whose single favorite references a review id that no
stored review carries (the review was never created or was deleted). -/
def dbOrphan : DB := (postFavorites dbEmpty bodyO 3 oidB).2

/-- The PUT body of the C7 witness: one validated field and one field
outside the validation set. -/
def updBody : Doc := [("rating", .vNum 5), ("note", .vStr "great")]

/-! Basic facts about field lookup and update. -/
theorem getField_cons (k : String) (v : Value) (rest : Doc) (f : String) :
    getField ((k, v) :: rest) f = if k = f then some v else getField rest f := rfl

theorem getField_append (l1 l2 : Doc) (f : String) :
    getField (l1 ++ l2) f = (getField l1 f).or (getField l2 f) := by
  induction l1 with
  | nil => simp [getField]
  | cons kv rest ih =>
      obtain ⟨k, v⟩ := kv
      by_cases h : k = f <;> simp [getField_cons, h, ih]

theorem getField_removeField_self (d : Doc) (f : String) :
    getField (removeField d f) f = none := by
  induction d with
  | nil => rfl
  | cons kv rest ih =>
      obtain ⟨k, v⟩ := kv
      rw [removeField]
      by_cases h : k = f
      · rw [if_pos h]; exact ih
      · rw [if_neg h, getField_cons, if_neg h]; exact ih

theorem getField_removeField_ne (d : Doc) (f g : String) (h : g ≠ f) :
    getField (removeField d f) g = getField d g := by
  induction d with
  | nil => rfl
  | cons kv rest ih =>
      obtain ⟨k, v⟩ := kv
      rw [removeField]
      by_cases hk : k = f
      · rw [if_pos hk, getField_cons, if_neg (hk ▸ fun hg => h hg.symm : ¬k = g)]
        exact ih
      · rw [if_neg hk, getField_cons, getField_cons]
        by_cases hg : k = g
        · rw [if_pos hg, if_pos hg]
        · rw [if_neg hg, if_neg hg]; exact ih

theorem getField_setField_self (d : Doc) (f : String) (v : Value) :
    getField (setField d f v) f = some v := by
  rw [setField, getField_append, getField_removeField_self]
  simp [getField_cons]

theorem getField_setField_ne (d : Doc) (f g : String) (v : Value) (h : g ≠ f) :
    getField (setField d f v) g = getField d g := by
  rw [setField, getField_append, getField_removeField_ne d f g h, getField_cons,
    if_neg (fun hg => h hg.symm)]
  cases getField d g <;> rfl

theorem hasField_eq_false_iff (d : Doc) (f : String) :
    hasField d f = false ↔ getField d f = none := by
  cases h : getField d f <;> simp [hasField, h]

theorem getField_eq_none_iff (d : Doc) (f : String) :
    getField d f = none ↔ f ∉ d.map Prod.fst := by
  induction d with
  | nil => simp [getField]
  | cons kv rest ih =>
      obtain ⟨k, v⟩ := kv
      by_cases h : k = f
      · subst h
        rw [getField_cons, if_pos rfl]
        simp
      · rw [getField_cons, if_neg h]
        simp only [List.map_cons, List.mem_cons, ih]
        constructor
        · intro hn hor
          rcases hor with hor | hor
          · exact h hor.symm
          · exact hn hor
        · intro hn hmem
          exact hn (Or.inr hmem)

/-- Every value produced by the JavaScript Number coercion is of number
type (possibly NaN). -/
theorem isNumberType_jsNumber (ov : Option Value) : isNumberType (jsNumber ov) = true := by
  match ov with
  | none | some .vNull | some .vNaN => rfl
  | some (.vBool b) => rfl
  | some (.vNum n) => rfl
  | some (.vId h) => rfl
  | some (.vDate t) => rfl
  | some (.vStr s) =>
      simp only [jsNumber, strToNumber]
      split
      · rfl
      · split <;> rfl

theorem getField_coerceRating (d : Doc) :
    getField (coerceRating d) "rating" = some (jsNumber (getField d "rating")) :=
  getField_setField_self ..

theorem getField_coerceRating_ne (d : Doc) (f : String) (h : f ≠ "rating") :
    getField (coerceRating d) f = getField d f :=
  getField_setField_ne _ _ _ _ h

/-! Facts about the merge performed by the update operation. -/
theorem mergeSet_nil (d : Doc) : mergeSet d [] = d := rfl

theorem mergeSet_cons (d : Doc) (k : String) (v : Value) (rest : Doc) :
    mergeSet d ((k, v) :: rest) = mergeSet (setField d k v) rest := rfl

theorem getField_mergeSet_not_mem (d upd : Doc) (f : String)
    (h : f ∉ upd.map Prod.fst) : getField (mergeSet d upd) f = getField d f := by
  induction upd generalizing d with
  | nil => rfl
  | cons kv rest ih =>
      obtain ⟨k, v⟩ := kv
      simp only [List.map_cons, List.mem_cons] at h
      push_neg at h
      rw [mergeSet_cons, ih _ h.2, getField_setField_ne _ _ _ _ h.1]

theorem getField_mergeSet_mem (d upd : Doc) (f : String) (v : Value)
    (hnd : (upd.map Prod.fst).Nodup) (h : getField upd f = some v) :
    getField (mergeSet d upd) f = some v := by
  induction upd generalizing d with
  | nil => simp [getField] at h
  | cons kv rest ih =>
      obtain ⟨k, w⟩ := kv
      simp only [List.map_cons, List.nodup_cons] at hnd
      rw [getField_cons] at h
      by_cases hk : k = f
      · rw [if_pos hk] at h
        injection h with h
        subst h
        subst hk
        rw [mergeSet_cons, getField_mergeSet_not_mem _ _ _ hnd.1,
          getField_setField_self]
      · rw [if_neg hk] at h
        rw [mergeSet_cons, ih _ hnd.2 h]

/-! The BSON comparison restricted to numbers is the numeric order. -/
theorem bsonKey_num_le_iff (m n : Int) :
    bsonKey (some (.vNum m)) ≤ bsonKey (some (.vNum n)) ↔ m ≤ n := by
  simp [bsonKey, bsonRank, bsonNumKey, bsonStrKey, Prod.Lex.le_iff]
  omega

/-! The modelled regex fragment degenerates to case-insensitive
substring search on metacharacter-free patterns. -/
theorem literalPat_head {p : Char} {ps : List Char}
    (h : literalPat (p :: ps) = true) : p ≠ '.' ∧ literalPat ps = true := by
  simp only [literalPat, List.all_cons, Bool.and_eq_true] at h
  refine ⟨?_, h.2⟩
  intro hp
  subst hp
  simp [regexMetaChars] at h

theorem patMatchAt_eq_startsWithCI (pat : List Char) (h : literalPat pat = true)
    (t : List Char) : patMatchAt pat t = startsWithCI pat t := by
  induction pat generalizing t with
  | nil => cases t <;> rfl
  | cons p ps ih =>
      obtain ⟨hp, hps⟩ := literalPat_head h
      cases t with
      | nil => rfl
      | cons c cs =>
          rw [patMatchAt, startsWithCI, ih hps]
          have hd : decide (p = '.') = false := by simp [hp]
          rw [hd]
          simp

theorem regexSearchCI_eq_containsCI (pat : List Char) (h : literalPat pat = true)
    (t : List Char) : regexSearchCI pat t = containsCI pat t := by
  induction t with
  | nil => rw [regexSearchCI, containsCI, patMatchAt_eq_startsWithCI pat h]
  | cons c cs ih =>
      rw [regexSearchCI, containsCI, patMatchAt_eq_startsWithCI pat h, ih]

theorem searchFilter_eq_substr (os : Option String) (d : Doc)
    (h : ∀ s, os = some s → literalPat s.data = true) :
    searchRegexFilter os d = searchSubstrFilter os d := by
  cases os with
  | none => rfl
  | some s =>
      have hs := h s rfl
      rw [searchRegexFilter, searchSubstrFilter]
      by_cases ht : trimChars s.data = []
      · rw [if_pos ht, if_pos ht]
      · rw [if_neg ht, if_neg ht]
        cases hf : getField d "foodName" with
        | none => rfl
        | some v =>
            cases v <;> simp only [regexSearchCI_eq_containsCI s.data hs]

theorem matchesQuery_eq_specMatches (q : ReviewsQuery) (h : searchLiteral q)
    (d : Doc) : matchesQuery q d = specMatches q d := by
  rw [matchesQuery, specMatches, searchFilter_eq_substr q.search d h]

/-! updateOne: characterisation in terms of the first `_id` match. -/
theorem updateFirst_of_find?_none (docs : List Doc) (oid : String) (upd : Doc)
    (h : docs.find? (idPred oid) = none) :
    updateFirstById docs oid upd = (0, docs) := by
  induction docs with
  | nil => rfl
  | cons d rest ih =>
      rw [List.find?_cons] at h
      rw [updateFirstById]
      cases hp : idPred oid d with
      | true => rw [hp] at h; exact absurd h (by simp)
      | false =>
          rw [hp] at h
          rw [if_neg (by simp [hp]), ih h]

theorem updateFirst_of_find?_some (docs : List Doc) (oid : String) (upd : Doc)
    (r : Doc) (h : docs.find? (idPred oid) = some r) :
    ∃ pre post, docs = pre ++ r :: post ∧
      (∀ d ∈ pre, idPred oid d = false) ∧
      updateFirstById docs oid upd = (1, pre ++ mergeSet r upd :: post) := by
  induction docs with
  | nil => simp [List.find?] at h
  | cons d rest ih =>
      rw [List.find?_cons] at h
      cases hp : idPred oid d with
      | true =>
          rw [hp] at h
          injection h with h
          subst h
          exact ⟨[], rest, rfl, by simp,
            by rw [updateFirstById, if_pos (by simp [hp]), List.nil_append]⟩
      | false =>
          rw [hp] at h
          obtain ⟨pre, post, hdocs, hpre, hupd⟩ := ih h
          refine ⟨d :: pre, post, by rw [hdocs]; rfl, ?_, ?_⟩
          · intro e he
            rcases List.mem_cons.mp he with he | he
            · subst he; exact hp
            · exact hpre e he
          · rw [updateFirstById, if_neg (by simp [hp]), hupd]
            rfl

/-! Fan-out join: when every step succeeds, mapM is a map. -/
theorem mapM_option_eq_map {α β : Type} (f : α → Option β) (g : α → β)
    (l : List α) (h : ∀ x ∈ l, f x = some (g x)) : l.mapM f = some (l.map g) := by
  induction l with
  | nil => rfl
  | cons x xs ih =>
      rw [List.mapM_cons, h x (List.mem_cons_self x xs),
        ih (fun y hy => h y (List.mem_cons_of_mem x hy))]
      rfl

/-! A validated favorites body binds both fields. -/
theorem postFavorites_valid_fields (body : Doc) (h : postFavoritesErrors body = []) :
    (∃ u, getField body "userEmail" = some u) ∧
      (∃ r, getField body "reviewId" = some r) := by
  rw [postFavoritesErrors] at h
  rcases List.append_eq_nil.mp h with ⟨h1, h2⟩
  constructor
  · cases hu : getField body "userEmail" with
    | none => rw [vIsEmail, hu] at h1; simp [valueToFieldStr, isEmailStr, isEmailStr.hasEmailShape] at h1
    | some u => exact ⟨u, rfl⟩
  · cases hr : getField body "reviewId" with
    | none => rw [vNotEmpty, hr] at h2; simp [valueToFieldStr] at h2
    | some r => exact ⟨r, rfl⟩

/-! A successful POST /reviews, characterised. -/
theorem postReviews_success (db : DB) (body : Doc) (now : Int) (fresh : String)
    (hv : postReviewsErrors body = [])
    (hid : hasField body "_id" = false)
    (hfresh : db.reviews.any (fun e => getField e "_id" == some (.vId fresh)) = false) :
    postReviews db body now fresh =
      (⟨201, .rInsert (.vId fresh)⟩,
       ⟨db.reviews ++ [("_id", Value.vId fresh) :: setField body "date" (.vDate now)],
        db.favorites⟩) := by
  have hone : getField (setField body "date" (.vDate now)) "_id" = none := by
    rw [getField_setField_ne _ _ _ _ (by decide)]
    exact (hasField_eq_false_iff body "_id").mp hid
  rw [postReviews, if_neg (by simp [hv])]
  simp only [insertOne, hone, hasField, Option.isSome_none, hfresh]
  rfl

/-- C1, counterexample to the storage half of the claim: a review
created with the string-typed rating "4" (which passes the isInt
validator) is stored with the string, not a number — only the read
paths coerce.  The state is reached by the POST /reviews handler
itself. -/
theorem c1_counterexample :
    ((postReviews dbEmpty strRatingBody 1000 oidA).1).status = 201 ∧
    ((postReviews dbEmpty strRatingBody 1000 oidA).2).reviews.map
        (fun d => getField d "rating") = [some (.vStr "4")] ∧
    isNumberType (.vStr "4") = false := by decide

/-- C1 (amended): the stored `rating` keeps the representation it was
submitted with (a string-like literal stays a string in storage), but
every read path — GET /reviews, GET /reviews/top, GET /reviews/:id —
returns `rating` coerced to numeric type; in particular a get-by-id
after a create returns a numeric `rating` even when the submitted value
was a string-like literal. -/
theorem c1_rating_read_coercion :
    (∀ (db : DB) (id : String) (r : Doc), getReviewById db id = ⟨200, .rDoc r⟩ →
        ∃ v, getField r "rating" = some v ∧ isNumberType v = true) ∧
    (∀ (db : DB) (q : ReviewsQuery) (l : List Doc),
        getReviews db q = ⟨200, .rReviewsObj l⟩ →
        ∀ d ∈ l, ∃ v, getField d "rating" = some v ∧ isNumberType v = true) ∧
    (∀ (db : DB) (l : List Doc), getTopReviews db = ⟨200, .rArr l⟩ →
        ∀ d ∈ l, ∃ v, getField d "rating" = some v ∧ isNumberType v = true) ∧
    (∀ (db : DB) (body : Doc) (now : Int) (fresh : String),
        postReviewsErrors body = [] →
        hasField body "_id" = false →
        db.reviews.any (fun e => getField e "_id" == some (.vId fresh)) = false →
        isValidObjectIdStr fresh = true → lowerStr fresh = fresh →
        ∃ r v, getReviewById (postReviews db body now fresh).2 fresh = ⟨200, .rDoc r⟩ ∧
          getField r "rating" = some v ∧ isNumberType v = true) := by
  have hcoerce : ∀ d : Doc, ∃ v, getField (coerceRating d) "rating" = some v ∧
      isNumberType v = true :=
    fun d => ⟨_, getField_coerceRating d, isNumberType_jsNumber _⟩
  refine ⟨?_, ?_, ?_, ?_⟩
  · intro db id r h
    rw [getReviewById] at h
    split at h
    · split at h
      · exact absurd (congrArg Resp.status h) (by simp)
      · obtain ⟨-, hb⟩ := Resp.mk.injEq .. ▸ h
        injection hb with hb
        exact hb ▸ hcoerce _
    · exact absurd (congrArg Resp.status h) (by simp)
  · intro db q l h d hd
    rw [getReviews] at h
    obtain ⟨-, hb⟩ := Resp.mk.injEq .. ▸ h
    injection hb with hb
    obtain ⟨d0, -, hd0⟩ := List.mem_map.mp (hb ▸ hd)
    exact hd0 ▸ hcoerce d0
  · intro db l h d hd
    rw [getTopReviews] at h
    obtain ⟨-, hb⟩ := Resp.mk.injEq .. ▸ h
    injection hb with hb
    obtain ⟨d0, -, hd0⟩ := List.mem_map.mp (hb ▸ hd)
    exact hd0 ▸ hcoerce d0
  · intro db body now fresh hv hid hfresh hval hlow
    rw [postReviews_success db body now fresh hv hid hfresh]
    rw [getReviewById, if_pos hval]
    simp only [hlow, findOneById, List.find?_append]
    have hpre : db.reviews.find? (idPred fresh) = none :=
      List.find?_eq_none.mpr (fun x hx => by
        simpa [idPred] using List.any_eq_false.mp hfresh x hx)
    rw [hpre]
    have hhead : idPred fresh (("_id", Value.vId fresh) :: setField body "date" (.vDate now))
        = true := by
      simp [idPred, getField_cons]
    rw [List.find?_cons, hhead]
    exact ⟨_, _, rfl, getField_coerceRating _, isNumberType_jsNumber _⟩

/-- Witness for the create-then-read part of C1 at a concrete input. -/
theorem c1_rating_read_coercion_witness :
    ∃ r v, getReviewById (postReviews dbEmpty strRatingBody 1000 oidA).2 oidA
        = ⟨200, .rDoc r⟩ ∧
      getField r "rating" = some v ∧ isNumberType v = true :=
  c1_rating_read_coercion.2.2.2 dbEmpty strRatingBody 1000 oidA (by decide)
    (by decide) (by decide) (by decide) (by decide)

/-- C5: GET /reviews/:id is trichotomous — a malformed identifier (the
ObjectId constructor throws) yields 500, a well-formed identifier
matching nothing yields 404, and a well-formed identifier matching a
review yields 200 with that review (rating coerced). -/
theorem c5_get_by_id_trichotomy :
    ∀ (db : DB) (id : String),
      (isValidObjectIdStr id = false → getReviewById db id = ⟨500, .rErrPage⟩) ∧
      (isValidObjectIdStr id = true → findOneById db.reviews (lowerStr id) = none →
        getReviewById db id = ⟨404, .rMsg "Review not found"⟩) ∧
      (∀ r, isValidObjectIdStr id = true →
        findOneById db.reviews (lowerStr id) = some r →
        getReviewById db id = ⟨200, .rDoc (coerceRating r)⟩) := by
  intro db id
  refine ⟨fun h => ?_, fun h hn => ?_, fun r h hs => ?_⟩
  · rw [getReviewById, if_neg (by simp [h])]
  · rw [getReviewById, if_pos h, hn]
  · rw [getReviewById, if_pos h, hs]

/-- Witness for C5: all three branches at concrete inputs. -/
theorem c5_get_by_id_trichotomy_witness :
    getReviewById dbOne "zz" = ⟨500, .rErrPage⟩ ∧
    getReviewById dbOne oidB = ⟨404, .rMsg "Review not found"⟩ ∧
    getReviewById dbOne oidA = ⟨200, .rDoc (coerceRating rvA)⟩ :=
  ⟨(c5_get_by_id_trichotomy dbOne "zz").1 (by decide),
   (c5_get_by_id_trichotomy dbOne oidB).2.1 (by decide) (by decide),
   (c5_get_by_id_trichotomy dbOne oidA).2.2 rvA (by decide) (by decide)⟩

/-- C3, counterexample to the monotonicity conjunct: in a reachable
state holding a numeric rating 4 and a string rating "3", the storage
sorts the string above every number (BSON type order), so the returned
coerced rating sequence is [3, 4] — increasing, not non-increasing. -/
theorem c3_counterexample :
    (arrDocsOf (getTopReviews dbMix)).map ratingNum = [3, 4] ∧
    ¬ (arrDocsOf (getTopReviews dbMix)).Pairwise
        (fun a b => ratingNum b ≤ ratingNum a) := by
  refine ⟨by decide, ?_⟩
  intro h
  have := List.pairwise_map (f := ratingNum)
      (R := fun (a b : Int) => b ≤ a) (l := arrDocsOf (getTopReviews dbMix))
  have h2 : ((arrDocsOf (getTopReviews dbMix)).map ratingNum).Pairwise
      (fun (a b : Int) => b ≤ a) := this.mpr (h.imp (fun hab => hab))
  rw [show (arrDocsOf (getTopReviews dbMix)).map ratingNum = [3, 4] from by decide] at h2
  have := List.pairwise_cons.mp h2
  have h3 := this.1 4 (by simp)
  omega

/-- C3 (amended): GET /reviews/top always responds 200 with a bare
array (not wrapped in an object) of at most 6 reviews — exactly
min 6 (number stored) — each rating coerced to numeric; the sequence is
non-increasing in the coerced rating provided every stored rating is of
number type (stored string ratings sort in a higher BSON type bracket
than all numbers, which can break numeric monotonicity — see the
counterexample). -/
theorem c3_top_reviews :
    ∀ db : DB,
      (getTopReviews db).status = 200 ∧
      (∃ l, (getTopReviews db).body = .rArr l) ∧
      (arrDocsOf (getTopReviews db)).length = min 6 db.reviews.length ∧
      (∀ d ∈ arrDocsOf (getTopReviews db),
        ∃ v, getField d "rating" = some v ∧ isNumberType v = true) ∧
      ((∀ d ∈ db.reviews, isNumValue (getField d "rating") = true) →
        (arrDocsOf (getTopReviews db)).Pairwise
          (fun a b => ratingNum b ≤ ratingNum a)) := by
  intro db
  have harr : arrDocsOf (getTopReviews db)
      = ((sortByFieldDesc "rating" db.reviews).take 6).map coerceRating := rfl
  have hsub := List.take_sublist 6 (sortByFieldDesc "rating" db.reviews)
  have hperm := List.perm_insertionSort (fieldDescBefore "rating") db.reviews
  refine ⟨rfl, ⟨_, rfl⟩, ?_, ?_, ?_⟩
  · rw [harr, List.length_map, List.length_take, sortByFieldDesc, hperm.length_eq]
  · intro d hd
    obtain ⟨d0, -, hd0⟩ := List.mem_map.mp (harr ▸ hd)
    exact hd0 ▸ ⟨_, getField_coerceRating d0, isNumberType_jsNumber _⟩
  · intro hall
    have hs : (sortByFieldDesc "rating" db.reviews).Pairwise (fieldDescBefore "rating") :=
      List.sorted_insertionSort _ _
    have htake := hs.sublist hsub
    rw [harr, List.pairwise_map]
    refine htake.imp_of_mem ?_
    intro a b ha hb hab
    have ha2 : a ∈ db.reviews := hperm.mem_iff.mp (List.Sublist.mem ha hsub)
    have hb2 : b ∈ db.reviews := hperm.mem_iff.mp (List.Sublist.mem hb hsub)
    have hna := hall a ha2
    have hnb := hall b hb2
    cases hga : getField a "rating" with
    | none => rw [hga] at hna; simp [isNumValue] at hna
    | some va =>
        cases va <;> rw [hga] at hna <;> try simp [isNumValue] at hna
        cases hgb : getField b "rating" with
        | none => rw [hgb] at hnb; simp [isNumValue] at hnb
        | some vb =>
            cases vb <;> rw [hgb] at hnb <;> try simp [isNumValue] at hnb
            rename_i na nb
            rw [fieldDescBefore, hga, hgb, bsonKey_num_le_iff] at hab
            have hra : ratingNum (coerceRating a) = na := by
              rw [ratingNum, getField_coerceRating, hga]; rfl
            have hrb : ratingNum (coerceRating b) = nb := by
              rw [ratingNum, getField_coerceRating, hgb]; rfl
            rw [hra, hrb]
            exact hab

/-- Witness for C3 at a concrete store with all-numeric ratings. -/
theorem c3_top_reviews_witness :
    (arrDocsOf (getTopReviews dbOne)).Pairwise (fun a b => ratingNum b ≤ ratingNum a) :=
  (c3_top_reviews dbOne).2.2.2.2 (by decide)

/-- C4, counterexample to the substring reading of the search filter:
the handler passes the raw search string to `$regex`, so the pattern
"p.zza" matches the stored foodName "pizza" (the dot is a wildcard)
although "p.zza" is not a substring of "pizza": the code returns the
review while the claimed filter semantics returns nothing. -/
theorem c4_counterexample :
    getReviews dbOne qDot = ⟨200, .rReviewsObj [coerceRating rvA]⟩ ∧
    dbOne.reviews.filter (specMatches qDot) = [] := by decide

/-- C4 (amended): GET /reviews responds 200 with `{reviews: [...]}`
containing exactly the stored reviews matching the filters — `userEmail`
by exact match (when present and nonempty) and `search` interpreted as a
case-insensitive regular expression against `foodName` rather than a
literal substring (the two coincide whenever the search term contains no
regex metacharacter, the case stated here), ignored when blank after
trim — ordered non-increasingly in the `date` field under the storage
comparison, each rating coerced to numeric, and an empty match set
yields an empty list rather than an error. -/
theorem c4_list_reviews :
    ∀ (db : DB) (q : ReviewsQuery), searchLiteral q →
      ∃ l : List Doc, getReviews db q = ⟨200, .rReviewsObj (l.map coerceRating)⟩ ∧
        l.Perm (db.reviews.filter (specMatches q)) ∧
        l.Pairwise (fieldDescBefore "date") ∧
        (∀ d ∈ l.map coerceRating,
          ∃ v, getField d "rating" = some v ∧ isNumberType v = true) ∧
        (db.reviews.filter (specMatches q) = [] →
          getReviews db q = ⟨200, .rReviewsObj []⟩) := by
  intro db q hlit
  have hfeq : db.reviews.filter (matchesQuery q) = db.reviews.filter (specMatches q) :=
    List.filter_congr (fun d _ => matchesQuery_eq_specMatches q hlit d)
  have hperm : (sortByFieldDesc "date" (db.reviews.filter (matchesQuery q))).Perm
      (db.reviews.filter (specMatches q)) :=
    hfeq ▸ List.perm_insertionSort (fieldDescBefore "date") (db.reviews.filter (matchesQuery q))
  refine ⟨sortByFieldDesc "date" (db.reviews.filter (matchesQuery q)), rfl, hperm,
    List.sorted_insertionSort _ _, ?_, ?_⟩
  · intro d hd
    obtain ⟨d0, -, hd0⟩ := List.mem_map.mp hd
    exact hd0 ▸ ⟨_, getField_coerceRating d0, isNumberType_jsNumber _⟩
  · intro hempty
    have : sortByFieldDesc "date" (db.reviews.filter (matchesQuery q)) = [] :=
      List.Perm.eq_nil (hempty ▸ hperm)
    rw [getReviews, this]
    rfl

/-- Witness for C4 at a concrete store and a metacharacter-free search. -/
theorem c4_list_reviews_witness :
    ∃ l : List Doc, getReviews dbOne ⟨some "a@b.com", some "piz"⟩
        = ⟨200, .rReviewsObj (l.map coerceRating)⟩ ∧
      l.Perm (dbOne.reviews.filter (specMatches ⟨some "a@b.com", some "piz"⟩)) ∧
      l.Pairwise (fieldDescBefore "date") ∧
      (∀ d ∈ l.map coerceRating,
        ∃ v, getField d "rating" = some v ∧ isNumberType v = true) ∧
      (dbOne.reviews.filter (specMatches ⟨some "a@b.com", some "piz"⟩) = [] →
        getReviews dbOne ⟨some "a@b.com", some "piz"⟩ = ⟨200, .rReviewsObj []⟩) :=
  c4_list_reviews dbOne ⟨some "a@b.com", some "piz"⟩
    (fun s hs => by injection hs with h; rw [← h]; decide)

/-- C8: for every body passing validation (with no client-supplied or
colliding `_id`), POST /reviews appends one document that carries every
body field verbatim — including fields outside the validation set — plus
a `date` field stamped with the server timestamp and the
storage-assigned `_id`, and responds 201 with the raw storage insertion
result. -/
theorem c8_post_reviews :
    ∀ (db : DB) (body : Doc) (now : Int) (fresh : String),
      postReviewsErrors body = [] →
      hasField body "_id" = false →
      db.reviews.any (fun e => getField e "_id" == some (.vId fresh)) = false →
      ∃ stored : Doc,
        postReviews db body now fresh = (⟨201, .rInsert (.vId fresh)⟩,
          ⟨db.reviews ++ [stored], db.favorites⟩) ∧
        (∀ f, f ≠ "date" → f ≠ "_id" → getField stored f = getField body f) ∧
        getField stored "date" = some (.vDate now) ∧
        getField stored "_id" = some (.vId fresh) := by
  intro db body now fresh hv hid hfresh
  refine ⟨_, postReviews_success db body now fresh hv hid hfresh, ?_, ?_, ?_⟩
  · intro f hd hi
    rw [getField_cons, if_neg (fun h => hi h.symm),
      getField_setField_ne _ _ _ _ hd]
  · rw [getField_cons, if_neg (by decide), getField_setField_self]
  · rw [getField_cons, if_pos rfl]

/-- Witness for C8: a valid body with a numeric rating at the empty store. -/
theorem c8_post_reviews_witness :
    ∃ stored : Doc,
      postReviews dbEmpty numRatingBody 1000 oidA = (⟨201, .rInsert (.vId oidA)⟩,
        ⟨dbEmpty.reviews ++ [stored], dbEmpty.favorites⟩) ∧
      (∀ f, f ≠ "date" → f ≠ "_id" → getField stored f = getField numRatingBody f) ∧
      getField stored "date" = some (.vDate 1000) ∧
      getField stored "_id" = some (.vId oidA) :=
  c8_post_reviews dbEmpty numRatingBody 1000 oidA (by decide) (by decide) (by decide)

/-- C9: on every route declaring field constraints — POST /reviews,
PUT /reviews/:id, POST /favorites — a body violating at least one
declared rule is answered 400 with the structured field/message error
list and the handler never runs: the stored state is unchanged. -/
theorem c9_validation_rejects :
    ∀ (db : DB) (id : String) (b1 b2 b3 : Doc) (now : Int) (fresh : String),
      (postReviewsErrors b1 ≠ [] →
        postReviews db b1 now fresh = (⟨400, .rErrors (postReviewsErrors b1)⟩, db)) ∧
      (putReviewsErrors b2 ≠ [] →
        putReviews db id b2 = (⟨400, .rErrors (putReviewsErrors b2)⟩, db)) ∧
      (postFavoritesErrors b3 ≠ [] →
        postFavorites db b3 now fresh = (⟨400, .rErrors (postFavoritesErrors b3)⟩, db)) := by
  intro db id b1 b2 b3 now fresh
  exact ⟨fun h => by rw [postReviews, if_pos h],
    fun h => by rw [putReviews, if_pos h],
    fun h => by rw [postFavorites, if_pos h]⟩

/-- Witness for C9: an empty POST /reviews body, an out-of-range rating
on PUT, and an empty POST /favorites body, each rejected with the state
unchanged. -/
theorem c9_validation_rejects_witness :
    postReviews dbOne [] 5 oidB = (⟨400, .rErrors (postReviewsErrors [])⟩, dbOne) ∧
    putReviews dbOne oidA [("rating", .vNum 9)]
      = (⟨400, .rErrors (putReviewsErrors [("rating", .vNum 9)])⟩, dbOne) ∧
    postFavorites dbOne [] 5 oidB = (⟨400, .rErrors (postFavoritesErrors [])⟩, dbOne) :=
  ⟨(c9_validation_rejects dbOne oidA [] [("rating", .vNum 9)] [] 5 oidB).1 (by decide),
   (c9_validation_rejects dbOne oidA [] [("rating", .vNum 9)] [] 5 oidB).2.1 (by decide),
   (c9_validation_rejects dbOne oidA [] [("rating", .vNum 9)] [] 5 oidB).2.2 (by decide)⟩

/-- insertOne on a document without `_id`, when the generated id is not
already present. -/
theorem insertOne_no_id (docs : List Doc) (d : Doc) (fresh : String)
    (hid : getField d "_id" = none)
    (hfresh : docs.any (fun e => getField e "_id" == some (.vId fresh)) = false) :
    insertOne docs d fresh = some (docs ++ [("_id", Value.vId fresh) :: d], .vId fresh) := by
  simp only [insertOne, hid, hasField, Option.isSome_none, hfresh]
  rfl

/-- A successful POST /favorites, characterised. -/
theorem postFavorites_success (db : DB) (b : Doc) (now : Int) (fresh : String)
    (hv : postFavoritesErrors b = [])
    (hnone : db.favorites.find? (sameFavPair b) = none)
    (hfresh : db.favorites.any (fun e => getField e "_id" == some (.vId fresh)) = false) :
    postFavorites db b now fresh = (⟨201, .rInsert (.vId fresh)⟩,
      ⟨db.reviews, db.favorites ++ [("_id", Value.vId fresh) :: favOf b now]⟩) := by
  rw [postFavorites, if_neg (by simp [hv]), hnone]
  show (match insertOne db.favorites (favOf b now) fresh with
    | some (docs, newId) =>
        ((⟨201, .rInsert newId⟩ : Resp), { db with favorites := docs })
    | none => ((⟨500, .rMsg "Failed to add favorite"⟩ : Resp), db))
    = (⟨201, .rInsert (.vId fresh)⟩,
       ⟨db.reviews, db.favorites ++ [("_id", Value.vId fresh) :: favOf b now]⟩)
  rw [insertOne_no_id db.favorites (favOf b now) fresh rfl hfresh]

/-- The stored favorite matches the pair predicate of the body it came
from, provided the body binds both pair fields. -/
theorem sameFavPair_favOf (b : Doc) (now : Int) (fresh : String) (u r : Value)
    (hu : getField b "userEmail" = some u) (hr : getField b "reviewId" = some r) :
    sameFavPair b (("_id", Value.vId fresh) :: favOf b now) = true := by
  rw [sameFavPair]
  have h1 : getField (("_id", Value.vId fresh) :: favOf b now) "userEmail"
      = some u := by
    rw [getField_cons, if_neg (by decide), favOf, getField_cons, if_pos rfl, hu]
    rfl
  have h2 : getField (("_id", Value.vId fresh) :: favOf b now) "reviewId"
      = some r := by
    rw [getField_cons, if_neg (by decide), favOf, getField_cons, if_neg (by decide),
      getField_cons, if_pos rfl, hr]
    rfl
  rw [h1, h2, hu, hr]
  simp

/-- C10: POST /favorites discards every body field beyond the pair —
the inserted document consists of exactly the storage `_id`, the body's
`userEmail` and `reviewId`, and the server-stamped `date`, unlike
POST /reviews which persists the whole body. -/
theorem c10_favorites_drop_extras :
    ∀ (db : DB) (body : Doc) (now : Int) (fresh : String),
      postFavoritesErrors body = [] →
      db.favorites.find? (sameFavPair body) = none →
      db.favorites.any (fun e => getField e "_id" == some (.vId fresh)) = false →
      ∃ fav : Doc,
        postFavorites db body now fresh = (⟨201, .rInsert (.vId fresh)⟩,
          ⟨db.reviews, db.favorites ++ [fav]⟩) ∧
        fav.map Prod.fst = ["_id", "userEmail", "reviewId", "date"] ∧
        getField fav "userEmail" = getField body "userEmail" ∧
        getField fav "reviewId" = getField body "reviewId" ∧
        getField fav "date" = some (.vDate now) ∧
        getField fav "_id" = some (.vId fresh) := by
  intro db body now fresh hv hnone hfresh
  obtain ⟨⟨u, hu⟩, ⟨r, hr⟩⟩ := postFavorites_valid_fields body hv
  refine ⟨("_id", Value.vId fresh) :: favOf body now,
    postFavorites_success db body now fresh hv hnone hfresh, rfl, ?_, ?_, rfl, rfl⟩
  · rw [getField_cons, if_neg (by decide), favOf, getField_cons, if_pos rfl, hu]
    rfl
  · rw [getField_cons, if_neg (by decide), favOf, getField_cons, if_neg (by decide),
      getField_cons, if_pos rfl, hr]
    rfl

/-- Witness for C10: the extra field of the body does not reach storage. -/
theorem c10_favorites_drop_extras_witness :
    ∃ fav : Doc,
      postFavorites dbEmpty favBodyX 3 oidB = (⟨201, .rInsert (.vId oidB)⟩,
        ⟨dbEmpty.reviews, dbEmpty.favorites ++ [fav]⟩) ∧
      fav.map Prod.fst = ["_id", "userEmail", "reviewId", "date"] ∧
      getField fav "userEmail" = getField favBodyX "userEmail" ∧
      getField fav "reviewId" = getField favBodyX "reviewId" ∧
      getField fav "date" = some (.vDate 3) ∧
      getField fav "_id" = some (.vId oidB) :=
  c10_favorites_drop_extras dbEmpty favBodyX 3 oidB (by decide) (by decide) (by decide)

/-- insertOne fails on a duplicate generated id. -/
theorem insertOne_dup (docs : List Doc) (d : Doc) (fresh : String)
    (hid : getField d "_id" = none)
    (hfresh : docs.any (fun e => getField e "_id" == some (.vId fresh)) = true) :
    insertOne docs d fresh = none := by
  simp only [insertOne, hid, hasField, Option.isSome_none, hfresh]
  rfl

/-- POST /favorites answers 400 without touching the store when the pair
already exists. -/
theorem postFavorites_dup (db : DB) (b : Doc) (now : Int) (fresh : String)
    (hv : postFavoritesErrors b = []) (d : Doc)
    (hfind : db.favorites.find? (sameFavPair b) = some d) :
    postFavorites db b now fresh = (⟨400, .rMsg "Already favorited"⟩, db) := by
  rw [postFavorites, if_neg (by simp [hv]), hfind]

/-- Every branch of POST /favorites either leaves the database unchanged
or appends exactly the one new favorite. -/
theorem postFavorites_db_cases (db : DB) (b : Doc) (now : Int) (fresh : String) :
    (postFavorites db b now fresh).2 = db ∨
    (postFavoritesErrors b = [] ∧ db.favorites.find? (sameFavPair b) = none ∧
      (postFavorites db b now fresh).2
        = ⟨db.reviews, db.favorites ++ [("_id", Value.vId fresh) :: favOf b now]⟩) := by
  by_cases hv : postFavoritesErrors b = []
  · cases hfind : db.favorites.find? (sameFavPair b) with
    | some d => exact Or.inl (by rw [postFavorites_dup db b now fresh hv d hfind])
    | none =>
        by_cases hfresh :
            db.favorites.any (fun e => getField e "_id" == some (.vId fresh)) = false
        · exact Or.inr ⟨hv, rfl,
            by rw [postFavorites_success db b now fresh hv hfind hfresh]⟩
        · left
          have hany : db.favorites.any
              (fun e => getField e "_id" == some (Value.vId fresh)) = true := by
            cases hx : db.favorites.any
                (fun e => getField e "_id" == some (Value.vId fresh)) with
            | true => rfl
            | false => exact absurd hx hfresh
          rw [postFavorites, if_neg (by simp [hv]), hfind]
          show (match insertOne db.favorites (favOf b now) fresh with
            | some (docs, newId) =>
                ((⟨201, .rInsert newId⟩ : Resp), { db with favorites := docs })
            | none => ((⟨500, .rMsg "Failed to add favorite"⟩ : Resp), db)).2 = db
          rw [insertOne_dup db.favorites (favOf b now) fresh rfl hany]
  · exact Or.inl (by rw [postFavorites, if_pos hv])

/-- The stored favorite fields, computed. -/
theorem getField_stored_fav (b : Doc) (now : Int) (fresh : String) :
    getField (("_id", Value.vId fresh) :: favOf b now) "userEmail"
        = some ((getField b "userEmail").getD .vNull) ∧
    getField (("_id", Value.vId fresh) :: favOf b now) "reviewId"
        = some ((getField b "reviewId").getD .vNull) := by
  constructor
  · rw [getField_cons, if_neg (by decide), favOf, getField_cons, if_pos rfl]
  · rw [getField_cons, if_neg (by decide), favOf, getField_cons, if_neg (by decide),
      getField_cons, if_pos rfl]

/-- C2: POST /favorites with an already-favorited (userEmail, reviewId)
pair answers 400 "Already favorited" and inserts nothing; otherwise it
inserts exactly one favorite stamped with the server timestamp.  Under
sequential execution the stored count for any fixed pair never exceeds
one, and a second identical request is answered 400 with the count still
one and the state untouched. -/
theorem c2_favorites_no_dup :
    ∀ (db : DB) (b : Doc) (now1 now2 : Int) (f1 f2 : String),
      (∀ d, postFavoritesErrors b = [] →
        db.favorites.find? (sameFavPair b) = some d →
        postFavorites db b now1 f1 = (⟨400, .rMsg "Already favorited"⟩, db)) ∧
      (∀ b' : Doc, countPair db b ≤ 1 →
        countPair (postFavorites db b' now1 f1).2 b ≤ 1) ∧
      (postFavoritesErrors b = [] → countPair db b = 0 →
        db.favorites.any (fun e => getField e "_id" == some (.vId f1)) = false →
        (postFavorites db b now1 f1).1.status = 201 ∧
        (postFavorites db b now1 f1).2
          = ⟨db.reviews, db.favorites ++ [("_id", Value.vId f1) :: favOf b now1]⟩ ∧
        getField (("_id", Value.vId f1) :: favOf b now1) "date" = some (.vDate now1) ∧
        countPair (postFavorites db b now1 f1).2 b = 1 ∧
        postFavorites (postFavorites db b now1 f1).2 b now2 f2
          = (⟨400, .rMsg "Already favorited"⟩, (postFavorites db b now1 f1).2) ∧
        countPair (postFavorites (postFavorites db b now1 f1).2 b now2 f2).2 b = 1) := by
  intro db b now1 now2 f1 f2
  refine ⟨fun d hv hfind => postFavorites_dup db b now1 f1 hv d hfind, ?_, ?_⟩
  · intro b' h
    rcases postFavorites_db_cases db b' now1 f1 with hdb | ⟨hv', hfind', hdb⟩
    · rw [hdb]; exact h
    · rw [hdb, countPair] at *
      rw [List.filter_append]
      obtain ⟨⟨u', hu'⟩, ⟨r', hr'⟩⟩ := postFavorites_valid_fields b' hv'
      obtain ⟨hfu, hfr⟩ := getField_stored_fav b' now1 f1
      rw [hu'] at hfu
      rw [hr'] at hfr
      by_cases hm : sameFavPair b (("_id", Value.vId f1) :: favOf b' now1) = true
      · have hm2 := hm
        rw [sameFavPair, hfu, hfr, Bool.and_eq_true] at hm2
        have hbu : getField b "userEmail" = some u' :=
          (eq_of_beq hm2.1).symm
        have hbr : getField b "reviewId" = some r' :=
          (eq_of_beq hm2.2).symm
        have hpred : ∀ d, sameFavPair b d = sameFavPair b' d := by
          intro d
          rw [sameFavPair, sameFavPair, hbu, hbr, hu', hr']
        have hfilter : db.favorites.filter (sameFavPair b) = [] := by
          rw [List.filter_congr (fun d _ => hpred d)]
          exact List.filter_eq_nil_iff.mpr (fun d hd => by
            simpa using List.find?_eq_none.mp hfind' d hd)
        rw [hfilter, List.filter_cons, if_pos (by simpa using hm)]
        simp
      · rw [List.filter_cons, if_neg (by simpa using hm)]
        simpa using h
  · intro hv hcount hfresh
    obtain ⟨⟨u, hu⟩, ⟨r, hr⟩⟩ := postFavorites_valid_fields b hv
    have hfilter0 : db.favorites.filter (sameFavPair b) = [] :=
      List.length_eq_zero.mp hcount
    have hfind : db.favorites.find? (sameFavPair b) = none :=
      List.find?_eq_none.mpr (fun x hx => by
        simpa using List.filter_eq_nil_iff.mp hfilter0 x hx)
    have hsucc := postFavorites_success db b now1 f1 hv hfind hfresh
    have hmatch := sameFavPair_favOf b now1 f1 u r hu hr
    have hc1 : countPair (postFavorites db b now1 f1).2 b = 1 := by
      rw [hsucc, countPair]
      show (List.filter (sameFavPair b)
        (db.favorites ++ [("_id", Value.vId f1) :: favOf b now1])).length = 1
      rw [List.filter_append, hfilter0, List.filter_cons, if_pos (by simpa using hmatch)]
      rfl
    have hfind2 : (postFavorites db b now1 f1).2.favorites.find? (sameFavPair b)
        = some (("_id", Value.vId f1) :: favOf b now1) := by
      rw [hsucc]
      show (db.favorites ++ [("_id", Value.vId f1) :: favOf b now1]).find?
        (sameFavPair b) = some (("_id", Value.vId f1) :: favOf b now1)
      rw [List.find?_append, hfind, List.find?_cons, hmatch]
      rfl
    have hdup := postFavorites_dup (postFavorites db b now1 f1).2 b now2 f2 hv
      (("_id", Value.vId f1) :: favOf b now1) hfind2
    refine ⟨by rw [hsucc], by rw [hsucc], rfl, hc1, hdup, ?_⟩
    rw [hdup]
    exact hc1

/-- Witness for C2: favoriting the same pair twice from the empty store —
first 201 with count one, second 400 with the state and count unchanged. -/
theorem c2_favorites_no_dup_witness :
    (postFavorites dbEmpty favBodyX 3 oidB).1.status = 201 ∧
    (postFavorites dbEmpty favBodyX 3 oidB).2
      = ⟨dbEmpty.reviews, dbEmpty.favorites ++ [("_id", Value.vId oidB) :: favOf favBodyX 3]⟩ ∧
    getField (("_id", Value.vId oidB) :: favOf favBodyX 3) "date" = some (.vDate 3) ∧
    countPair (postFavorites dbEmpty favBodyX 3 oidB).2 favBodyX = 1 ∧
    postFavorites (postFavorites dbEmpty favBodyX 3 oidB).2 favBodyX 4 oidC
      = (⟨400, .rMsg "Already favorited"⟩, (postFavorites dbEmpty favBodyX 3 oidB).2) ∧
    countPair (postFavorites (postFavorites dbEmpty favBodyX 3 oidB).2 favBodyX 4 oidC).2
      favBodyX = 1 :=
  (c2_favorites_no_dup dbEmpty favBodyX 3 4 oidB oidC).2.2 (by decide) (by decide)
    (by decide)

/-- C6, counterexample to the isolation conjunct: one favorite with a
malformed stored reviewId makes the ObjectId constructor throw inside
the fan-out join, rejecting the whole Promise.all — the entire
GET /favorites/:email response is a 500, not a per-item failure. -/
theorem c6_counterexample :
    getFavorites dbBadFav "a@b.com" = ⟨500, .rMsg "Failed to fetch favorites"⟩ := by
  decide

/-- C6 (amended): when every favorite stored for the email carries a
well-formed (string) identifier, GET /favorites/:email returns one
merged record per stored favorite, the embedded review being the lookup
result — absent (none) rather than an error when the referenced review
was deleted; a favorite with a malformed stored reviewId, however,
aborts the whole response with a 500 (see the counterexample). -/
theorem c6_favorites_join :
    ∀ (db : DB) (email : String),
      (∀ d ∈ db.favorites, (getField d "userEmail" == some (.vStr email)) = true →
        validStrRid d = true) →
      getFavorites db email = ⟨200, .rFavs
        ((db.favorites.filter
            (fun d => getField d "userEmail" == some (.vStr email))).map
          (fun fav => (fav, findOneById db.reviews (lowerStr (favRidStr fav)))))⟩ := by
  intro db email hall
  rw [getFavorites]
  have hmap : (db.favorites.filter
      (fun d => getField d "userEmail" == some (.vStr email))).mapM
        (favoriteRecord db)
      = some ((db.favorites.filter
          (fun d => getField d "userEmail" == some (.vStr email))).map
        (fun fav => (fav, findOneById db.reviews (lowerStr (favRidStr fav))))) := by
    apply mapM_option_eq_map
    intro fav hfav
    obtain ⟨hmem, hpred⟩ := List.mem_filter.mp hfav
    have hrid := hall fav hmem hpred
    rw [validStrRid] at hrid
    cases hg : getField fav "reviewId" with
    | none => rw [hg] at hrid; cases hrid
    | some v =>
        cases v <;> rw [hg] at hrid
        case vStr s =>
          simp only [favoriteRecord, favRidStr, hg, if_pos hrid]
        all_goals cases hrid
  rw [hmap]

/-- Witness for C6: one favorite pointing at a deleted review yields a
200 with one record whose embedded review is absent. -/
theorem c6_favorites_join_witness :
    getFavorites dbOrphan "a@b.com" = ⟨200, .rFavs
      ((dbOrphan.favorites.filter
          (fun d => getField d "userEmail" == some (.vStr "a@b.com"))).map
        (fun fav => (fav, findOneById dbOrphan.reviews (lowerStr (favRidStr fav)))))⟩ ∧
    (dbOrphan.favorites.filter
        (fun d => getField d "userEmail" == some (.vStr "a@b.com"))).map
      (fun fav => (fav, findOneById dbOrphan.reviews (lowerStr (favRidStr fav))))
      = [(("_id", Value.vId oidB) :: favOf bodyO 3, none)] :=
  ⟨c6_favorites_join dbOrphan "a@b.com" (by decide), by decide⟩

/-- C7, counterexample to the empty-body case: the empty body passes
validation (every PUT rule is optional) and the identifier matches a
stored review, yet the update neither persists with 200 nor misses with
404 — the storage rejects the empty `$set` and the handler's catch
answers 500, leaving the store unchanged. -/
theorem c7_counterexample :
    putReviewsErrors [] = [] ∧
    findOneById dbOne.reviews (lowerStr oidA) = some rvA ∧
    putReviews dbOne oidA [] = (⟨500, .rMsg "Failed to update review"⟩, dbOne) := by
  decide

/-- C7 (amended): PUT /reviews/:id with a well-formed identifier and a
validated nonempty body merges exactly the provided body fields
verbatim into the matched document — any body field, also outside the
validation set, is persisted; every field absent from the body,
including `_id` and `date`, is left unchanged, and all other documents
and the favorites collection are untouched.  When nothing matches, the
response is 404 and the store is unchanged.  An empty body — which
passes validation, every PUT rule being optional — makes the storage
reject the empty `$set`, answered 500 with the store unchanged. -/
theorem c7_put_merge_update :
    ∀ (db : DB) (id : String) (body : Doc),
      putReviewsErrors body = [] →
      isValidObjectIdStr id = true →
      (body.map Prod.fst).Nodup →
      hasField body "_id" = false →
      (∀ r, body ≠ [] → findOneById db.reviews (lowerStr id) = some r →
        ∃ pre post, db.reviews = pre ++ r :: post ∧
          putReviews db id body = (⟨200, .rMsg "Review updated successfully"⟩,
            ⟨pre ++ mergeSet r body :: post, db.favorites⟩) ∧
          (∀ f v, getField body f = some v → getField (mergeSet r body) f = some v) ∧
          (∀ f, getField body f = none → getField (mergeSet r body) f = getField r f) ∧
          getField (mergeSet r body) "_id" = getField r "_id") ∧
      (body ≠ [] → findOneById db.reviews (lowerStr id) = none →
        putReviews db id body = (⟨404, .rMsg "Review not found"⟩, db)) ∧
      (body = [] →
        putReviews db id body = (⟨500, .rMsg "Failed to update review"⟩, db)) := by
  intro db id body hv hvalid hnodup hnoid
  refine ⟨?_, ?_, ?_⟩
  · intro r hne hfind
    obtain ⟨pre, post, hdocs, hpre, hupd⟩ :=
      updateFirst_of_find?_some db.reviews (lowerStr id) body r hfind
    refine ⟨pre, post, hdocs, ?_, ?_, ?_, ?_⟩
    · rw [putReviews, if_neg (by simp [hv]), if_pos hvalid, updateOneById,
        if_neg hne, hupd]
      rfl
    · intro f v h
      exact getField_mergeSet_mem r body f v hnodup h
    · intro f h
      exact getField_mergeSet_not_mem r body f ((getField_eq_none_iff body f).mp h)
    · exact getField_mergeSet_not_mem r body "_id"
        ((getField_eq_none_iff body "_id").mp ((hasField_eq_false_iff body "_id").mp hnoid))
  · intro hne hfind
    rw [putReviews, if_neg (by simp [hv]), if_pos hvalid, updateOneById,
      if_neg hne, updateFirst_of_find?_none db.reviews (lowerStr id) body hfind]
    rfl
  · intro he
    rw [putReviews, if_neg (by simp [hv]), if_pos hvalid, updateOneById, if_pos he]

/-- Witness for C7 at a concrete store and body. -/
theorem c7_put_merge_update_witness :
    ∃ pre post, dbOne.reviews = pre ++ rvA :: post ∧
      putReviews dbOne oidA updBody = (⟨200, .rMsg "Review updated successfully"⟩,
        ⟨pre ++ mergeSet rvA updBody :: post, dbOne.favorites⟩) ∧
      (∀ f v, getField updBody f = some v → getField (mergeSet rvA updBody) f = some v) ∧
      (∀ f, getField updBody f = none →
        getField (mergeSet rvA updBody) f = getField rvA f) ∧
      getField (mergeSet rvA updBody) "_id" = getField rvA "_id" :=
  (c7_put_merge_update dbOne oidA updBody (by decide) (by decide) (by decide)
    (by decide)).1 rvA (by decide) (by decide)

end FoodLover
